import Mathlib

/-!
Verification development for the Benford's Law analysis pipeline
(`benford_analysis.py`).

The program is a linear pipeline: load a spreadsheet into a table of named
columns, extract the leading significant decimal digit from each value of a
chosen column, count digit frequencies, compare them against the Benford
densities `log10 (1 + 1/d)`, and write a text report plus a chart.

The embedding below models cell values exactly (rationals instead of IEEE
doubles), and models the formatting step `"{:.15f}".format(n_abs)` of
`get_first_digit` as rounding `|n| * 10^15` to the nearest integer with
ties-to-even (Python's float formatting rounds half to even); the subsequent
`replace('.', '').lstrip('0')` and `int(s[0])` steps amount to taking the
leading decimal digit of that integer, or `None` when the integer is zero.
-/

namespace Benford

/-- Leading decimal digit of a natural number, fuel-based so that the kernel
can evaluate it on literals: repeatedly divide by 10 until below 10. -/
def leadAux : Nat → Nat → Nat
  | 0, m => m
  | fuel + 1, m => if m < 10 then m else leadAux fuel (m / 10)

/-- Leading decimal digit of `m` (and `0` for `m = 0`): the digit kept by
`lstrip('0')` from the decimal string of `m`. -/
def lead (m : Nat) : Nat := leadAux (m + 1) m

/-- The helper `leadAux` does not depend on the fuel as long as the fuel bounds the
number of decimal digits. -/
theorem leadAux_congr : ∀ f₁ f₂ m : Nat, m < 10 ^ f₁ → m < 10 ^ f₂ →
    leadAux f₁ m = leadAux f₂ m := by
  intro f₁
  induction f₁ with
  | zero =>
    intro f₂ m h₁ h₂
    interval_cases m
    cases f₂ with
    | zero => rfl
    | succ g => simp [leadAux]
  | succ f ih =>
    intro f₂ m h₁ h₂
    by_cases hm : m < 10
    · cases f₂ with
      | zero =>
        interval_cases m
        simp [leadAux]
      | succ g => simp [leadAux, hm]
    · cases f₂ with
      | zero =>
        exfalso
        simp at h₂
        omega
      | succ g =>
        simp only [leadAux, hm, if_false]
        apply ih
        · exact Nat.div_lt_of_lt_mul (by rw [← pow_succ']; exact h₁)
        · exact Nat.div_lt_of_lt_mul (by rw [← pow_succ']; exact h₂)

theorem lt_ten_pow_self (m : Nat) : m < 10 ^ (m + 1) :=
  lt_of_lt_of_le (Nat.lt_pow_self (show 1 < 10 by norm_num) m)
    (Nat.pow_le_pow_right (by norm_num) (by omega))

/-- Unfolding equation for `lead`, independent of the fuel. -/
theorem lead_eq (m : Nat) : lead m = if m < 10 then m else lead (m / 10) := by
  by_cases hm : m < 10
  · simp [lead, leadAux, hm]
  · rw [if_neg hm]
    have h1 : lead m = leadAux m (m / 10) := by
      simp [lead, leadAux, hm]
    rw [h1]
    show leadAux m (m / 10) = leadAux (m / 10 + 1) (m / 10)
    apply leadAux_congr
    · exact lt_of_le_of_lt (Nat.div_le_self m 10)
        (lt_of_lt_of_le (Nat.lt_pow_self (show 1 < 10 by norm_num) m)
          (Nat.pow_le_pow_right (by norm_num) (by omega)))
    · exact lt_ten_pow_self (m / 10)

/-- The leading digit of a positive number lies in `1..9`. -/
theorem lead_range (m : Nat) (hm : 1 ≤ m) : 1 ≤ lead m ∧ lead m ≤ 9 := by
  induction m using Nat.strong_induction_on with
  | _ m ih =>
    rw [lead_eq]
    by_cases h : m < 10
    · simp [h]; omega
    · simp only [h, if_false]
      exact ih (m / 10) (Nat.div_lt_self (by omega) (by norm_num)) (by omega)

/-- Multiplying by 10 does not change the leading digit of a positive number. -/
theorem lead_mul_ten (m : Nat) (hm : 1 ≤ m) : lead (m * 10) = lead m := by
  rw [lead_eq]
  have h : ¬ m * 10 < 10 := by omega
  rw [if_neg h]
  congr 1
  omega

/-- Multiplying by a power of 10 does not change the leading digit. -/
theorem lead_mul_pow_ten (m : Nat) (hm : 1 ≤ m) (k : Nat) :
    lead (m * 10 ^ k) = lead m := by
  induction k with
  | zero => simp
  | succ k ih =>
    have h : m * 10 ^ (k + 1) = m * 10 ^ k * 10 := by ring
    rw [h, lead_mul_ten (m * 10 ^ k)
      (Nat.mul_pos (by omega) (pow_pos (by norm_num) k)), ih]

/-- Round a rational to the nearest integer, ties to even: the rounding
performed by Python's fixed-point float formatting. -/
def rhe (q : ℚ) : ℤ :=
  if q - ⌊q⌋ < 1 / 2 then ⌊q⌋
  else if 1 / 2 < q - ⌊q⌋ then ⌊q⌋ + 1
  else if ⌊q⌋ % 2 = 0 then ⌊q⌋ else ⌊q⌋ + 1

/-- Rounding an integer gives that integer. -/
theorem rhe_intCast (a : ℤ) : rhe (a : ℚ) = a := by
  unfold rhe
  norm_num

/-- The rounding `rhe` is at least the floor. -/
theorem floor_le_rhe (q : ℚ) : ⌊q⌋ ≤ rhe q := by
  unfold rhe
  split_ifs <;> omega

/-- A rational at least 1 rounds to at least 1. -/
theorem one_le_rhe (q : ℚ) (hq : 1 ≤ q) : 1 ≤ rhe q := by
  have h : (1 : ℤ) ≤ ⌊q⌋ := by
    rw [Int.le_floor]; exact_mod_cast hq
  exact le_trans h (floor_le_rhe q)

/-- A cell value of the input table: a number (modelled exactly as a
rational), a missing value (`None`/`NaT`, for which `pd.isna` is true), a
float `nan` (also `pd.isna`), positive or negative infinity, or text. -/
inductive Value where
  | num (q : ℚ)
  | null
  | nan
  | inf
  | negInf
  | text (s : String)
deriving DecidableEq

/-- Translation of `get_first_digit` of `benford_analysis.py`.

* `pd.isna` is true for `null`/`nan`: return `None`.
* `abs` of a string raises `TypeError`, caught by the `except`: `None`.
* for an infinity, `"{:.15f}".format` yields `"inf"`, and `int('i')` raises
  `ValueError`, caught by the `except`: `None`.
* for a number `q`: if `abs q == 0` return `None`; otherwise format `|q|`
  with exactly 15 fractional decimal digits (rounding half to even), drop the
  decimal point and strip leading zeros.  The remaining string is the decimal
  representation of `m = rhe (|q| * 10^15)`; it is empty iff `m = 0` (then
  `None`), and otherwise its first character is the leading digit of `m`. -/
def get_first_digit : Value → Option Nat
  | .null => none
  | .nan => none
  | .inf => none
  | .negInf => none
  | .text _ => none
  | .num q =>
    if q = 0 then none
    else
      let m := (rhe (|q| * 10 ^ 15)).toNat
      if m = 0 then none else some (lead m)

/-- The function `lead` picks out the top decimal digit: if `m = d * 10 ^ k + r` with
`1 ≤ d ≤ 9` and `r < 10 ^ k`, then `lead m = d`. -/
theorem lead_spec : ∀ (k m d r : Nat), 1 ≤ d → d ≤ 9 → r < 10 ^ k →
    m = d * 10 ^ k + r → lead m = d := by
  intro k
  induction k with
  | zero =>
    intro m d r h1 h9 hr hm
    have hr0 : r = 0 := by omega
    subst hr0
    rw [lead_eq, hm]
    simp only [pow_zero, mul_one, Nat.add_zero]
    rw [if_pos (by omega)]
  | succ k ih =>
    intro m d r h1 h9 hr hm
    have hpow : 10 ≤ 10 ^ (k + 1) := by
      calc 10 = 10 ^ 1 := by norm_num
        _ ≤ 10 ^ (k + 1) := Nat.pow_le_pow_right (by norm_num) (by omega)
    have hd : 10 ^ (k + 1) ≤ d * 10 ^ (k + 1) := Nat.le_mul_of_pos_left _ (by omega)
    have hm10 : ¬ m < 10 := by omega
    rw [lead_eq, if_neg hm10]
    apply ih (m / 10) d (r / 10)
    · exact h1
    · exact h9
    · exact Nat.div_lt_of_lt_mul (by rw [← pow_succ']; exact hr)
    · have h : m = 10 * (d * 10 ^ k) + r := by rw [hm]; ring
      rw [h, Nat.mul_add_div (by norm_num)]

/-- Unfolding of `get_first_digit` on a numeric value. -/
theorem get_first_digit_num (q : ℚ) :
    get_first_digit (.num q) =
      if q = 0 then none
      else if (rhe (|q| * 10 ^ 15)).toNat = 0 then none
      else some (lead (rhe (|q| * 10 ^ 15)).toNat) := rfl

/-- Evaluation helper: a numeric value whose 15-fraction-digit rendering
rounds to the positive integer `a` yields `some (lead a.toNat)`. -/
theorem get_first_digit_eval (q : ℚ) (a : Nat) (hq : q ≠ 0)
    (h : rhe (|q| * 10 ^ 15) = (a : ℤ)) (ha : 1 ≤ a) :
    get_first_digit (.num q) = some (lead a) := by
  rw [get_first_digit_num, if_neg hq, h, Int.toNat_natCast, if_neg (by omega)]

/-- Evaluation helper: a numeric value whose 15-fraction-digit rendering
rounds to zero yields no digit. -/
theorem get_first_digit_zero_round (q : ℚ) (h : rhe (|q| * 10 ^ 15) = 0) :
    get_first_digit (.num q) = none := by
  rw [get_first_digit_num, h]
  split
  · rfl
  · simp

/-- Any digit actually returned by `get_first_digit` lies in `1..9`. -/
theorem get_first_digit_range (v : Value) (d : Nat)
    (h : get_first_digit v = some d) : 1 ≤ d ∧ d ≤ 9 := by
  cases v with
  | num q =>
    rw [get_first_digit_num] at h
    split at h
    · exact absurd h (by simp)
    · split at h
      · exact absurd h (by simp)
      · rename_i h0 hm
        have hlr := lead_range (rhe (|q| * 10 ^ 15)).toNat (by omega)
        have hd := Option.some.inj h
        omega
  | null => exact absurd h (by simp [get_first_digit])
  | nan => exact absurd h (by simp [get_first_digit])
  | inf => exact absurd h (by simp [get_first_digit])
  | negInf => exact absurd h (by simp [get_first_digit])
  | text s => exact absurd h (by simp [get_first_digit])

/-- Claim C9: `get_first_digit` is total: on every kind of input it returns
either no digit or a digit in `1..9` (never `0`), and infinite inputs (as
well as `NaN`) yield no digit. -/
theorem c9_get_first_digit_total :
    (∀ v : Value, get_first_digit v = none ∨
      ∃ d, get_first_digit v = some d ∧ 1 ≤ d ∧ d ≤ 9) ∧
    get_first_digit .inf = none ∧
    get_first_digit .negInf = none ∧
    get_first_digit .nan = none := by
  refine ⟨?_, rfl, rfl, rfl⟩
  intro v
  cases hv : get_first_digit v with
  | none => exact Or.inl rfl
  | some d => exact Or.inr ⟨d, rfl, get_first_digit_range v d hv⟩

/-- Claim C1 (amended): every numeric input whose absolute value is at least
`10 ^ (-15)` yields a digit in `1..9`. -/
theorem c1_first_digit_in_range (q : ℚ) (hq : q ≠ 0)
    (h : 1 / 10 ^ 15 ≤ |q|) :
    ∃ d, get_first_digit (.num q) = some d ∧ 1 ≤ d ∧ d ≤ 9 := by
  have hx : (1 : ℚ) ≤ |q| * 10 ^ 15 := by
    calc (1 : ℚ) = 1 / 10 ^ 15 * 10 ^ 15 := by norm_num
      _ ≤ |q| * 10 ^ 15 := mul_le_mul_of_nonneg_right h (by positivity)
  have ha : 1 ≤ rhe (|q| * 10 ^ 15) := one_le_rhe _ hx
  have hm : ¬ (rhe (|q| * 10 ^ 15)).toNat = 0 := by omega
  rw [get_first_digit_num, if_neg hq, if_neg hm]
  have hr := lead_range (rhe (|q| * 10 ^ 15)).toNat (by omega)
  exact ⟨_, rfl, hr.1, hr.2⟩

/-- Witness for C1 at the spec's example magnitude `0.0045`. -/
theorem c1_witness :
    (9 / 2000 : ℚ) ≠ 0 ∧ (1 / 10 ^ 15 : ℚ) ≤ |(9 / 2000 : ℚ)| ∧
    (∃ d, get_first_digit (.num (9 / 2000)) = some d ∧ 1 ≤ d ∧ d ≤ 9) :=
  ⟨by norm_num, by rw [abs_of_pos (by norm_num)]; norm_num,
    c1_first_digit_in_range (9 / 2000) (by norm_num)
      (by rw [abs_of_pos (by norm_num)]; norm_num)⟩

/-- Counterexample to C1 as stated: the non-zero input `10 ^ (-16)` rounds
to fifteen zero fractional digits, so no digit is returned. -/
theorem c1_counterexample :
    (1 / 10 ^ 16 : ℚ) ≠ 0 ∧ get_first_digit (.num (1 / 10 ^ 16)) = none := by
  constructor
  · norm_num
  · apply get_first_digit_zero_round
    rw [abs_of_pos (by norm_num)]
    norm_num [rhe]

/-- A nonzero rational whose product with `10 ^ 15` is the integer `a`
yields the digit `lead a.natAbs`. -/
theorem get_first_digit_of_int_scaled (q : ℚ) (a : ℤ) (hq : q ≠ 0)
    (ha : q * 10 ^ 15 = (a : ℚ)) :
    get_first_digit (.num q) = some (lead a.natAbs) := by
  have ha0 : a ≠ 0 := by
    intro h0
    rw [h0] at ha
    exact hq (by simpa using ha)
  have haa : |q| * 10 ^ 15 = ((a.natAbs : ℤ) : ℚ) := by
    have h : |q * 10 ^ 15| = |(a : ℚ)| := by rw [ha]
    rwa [abs_mul, abs_of_pos (by positivity : (0 : ℚ) < 10 ^ 15),
      ← Int.cast_abs, Int.abs_eq_natAbs] at h
  apply get_first_digit_eval q a.natAbs hq
  · rw [haa]
    exact rhe_intCast _
  · omega

/-- Claim C2 (amended): leading-digit extraction is scale-invariant on the
values whose 15-fraction-digit decimal renderings are exact: if both
`q * 10 ^ 15` and `q * 10 ^ (15 + k)` are integers for a non-zero `q`, then
`get_first_digit (q * 10 ^ k) = get_first_digit q`. -/
theorem c2_scale_invariance (q : ℚ) (k : ℤ) (hq : q ≠ 0)
    (h1 : ∃ a : ℤ, q * 10 ^ 15 = (a : ℚ))
    (h2 : ∃ b : ℤ, q * 10 ^ ((15 : ℤ) + k) = (b : ℚ)) :
    get_first_digit (.num (q * 10 ^ k)) = get_first_digit (.num q) := by
  obtain ⟨a, ha⟩ := h1
  obtain ⟨b, hb⟩ := h2
  have hk0 : (0 : ℚ) < 10 ^ k := zpow_pos (by norm_num) k
  have hq' : q * 10 ^ k ≠ 0 := mul_ne_zero hq (ne_of_gt hk0)
  have hb' : (q * 10 ^ k) * 10 ^ 15 = (b : ℚ) := by
    rw [← hb, zpow_add₀ (by norm_num : (10 : ℚ) ≠ 0) 15 k]
    rw [show ((10 : ℚ) ^ (15 : ℤ)) = 10 ^ (15 : ℕ) from zpow_natCast 10 15]
    ring
  rw [get_first_digit_of_int_scaled q a hq ha,
    get_first_digit_of_int_scaled (q * 10 ^ k) b hq' hb']
  have ha0 : a ≠ 0 := by
    intro h0
    rw [h0] at ha
    exact hq (by simpa using ha)
  have hab : (b : ℚ) = (a : ℚ) * 10 ^ k := by
    rw [← hb', ← ha]
    ring
  have hA : 1 ≤ a.natAbs := by omega
  obtain ⟨n, rfl | rfl⟩ := Int.eq_nat_or_neg k
  · have hbn : b = a * 10 ^ n := by
      have h : (b : ℚ) = ((a * 10 ^ n : ℤ) : ℚ) := by
        rw [hab, zpow_natCast]
        push_cast
        rfl
      exact_mod_cast h
    have habs : b.natAbs = a.natAbs * 10 ^ n := by
      rw [hbn, Int.natAbs_mul, Int.natAbs_pow]
      rfl
    rw [habs, lead_mul_pow_ten _ hA]
  · have h : (b : ℚ) * 10 ^ (n : ℕ) = (a : ℚ) := by
      rw [hab, zpow_neg, zpow_natCast]
      field_simp
    have han : a = b * 10 ^ n := by
      exact_mod_cast h.symm
    have hb0 : b ≠ 0 := by
      intro h0
      rw [h0, zero_mul] at han
      exact ha0 han
    have hB : 1 ≤ b.natAbs := by omega
    have habs : a.natAbs = b.natAbs * 10 ^ n := by
      rw [han, Int.natAbs_mul, Int.natAbs_pow]
      rfl
    rw [habs, lead_mul_pow_ten _ hB]

/-- Witness for C2: `0.0045 = 45 * 10 ^ (-4)` has the same leading digit
as `45`. -/
theorem c2_witness :
    (45 : ℚ) ≠ 0 ∧ (∃ a : ℤ, (45 : ℚ) * 10 ^ 15 = (a : ℚ)) ∧
    (∃ b : ℤ, (45 : ℚ) * 10 ^ ((15 : ℤ) + (-4)) = (b : ℚ)) ∧
    get_first_digit (.num ((45 : ℚ) * 10 ^ (-4 : ℤ))) =
      get_first_digit (.num (45 : ℚ)) :=
  ⟨by norm_num, ⟨45000000000000000, by norm_num⟩,
    ⟨4500000000000, by norm_num⟩,
    c2_scale_invariance 45 (-4) (by norm_num)
      ⟨45000000000000000, by norm_num⟩ ⟨4500000000000, by norm_num⟩⟩

/-- Counterexample to C2 as stated: for `n = 96 * 10 ^ (-17)` (a non-zero
value) and `k = 2`, rounding at the fifteenth fractional digit turns the
leading digit `9` into `1`, so `extract(n * 10 ^ 2) ≠ extract(n)`. -/
theorem c2_counterexample :
    get_first_digit (.num ((96 / 10 ^ 17) * 10 ^ (2 : ℤ))) ≠
      get_first_digit (.num (96 / 10 ^ 17)) := by
  have h1 : get_first_digit (.num ((96 / 10 ^ 17 : ℚ) * 10 ^ (2 : ℤ))) = some 9 := by
    rw [show (96 / 10 ^ 17 : ℚ) * 10 ^ (2 : ℤ) = 96 / 10 ^ 15 by norm_num]
    rw [get_first_digit_eval (96 / 10 ^ 15) 96 (by norm_num)
      (by rw [abs_of_pos (by norm_num)]; norm_num [rhe]) (by norm_num)]
    rw [lead_spec 1 96 9 6 (by norm_num) (by norm_num) (by norm_num) (by norm_num)]
  have h2 : get_first_digit (.num (96 / 10 ^ 17)) = some 1 := by
    rw [get_first_digit_eval (96 / 10 ^ 17) 1 (by norm_num)
      (by rw [abs_of_pos (by norm_num)]; norm_num [rhe]) (by norm_num)]
    rw [lead_spec 0 1 1 0 (by norm_num) (by norm_num) (by norm_num) (by norm_num)]
  rw [h1, h2]
  simp

/-- A loaded table: ordered named columns (the pandas `DataFrame`). -/
abbrev Dataset := List (String × List Value)

/-- Translation of `df.columns.tolist()`. -/
def columnNames (df : Dataset) : List String := df.map (fun c => c.1)

/-- Translation of `df[name]`: the cells of the named column (`main` only reads a column
after checking it is present; an absent name gives the empty column). -/
def getColumn (df : Dataset) (name : String) : List Value :=
  match df.find? (fun c => c.1 == name) with
  | some c => c.2
  | none => []

/-- Column selection of `main`: the column named `Amount` if present, else
`AbsoluteAmount` (the boolean records that the fallback notice is printed),
else nothing. -/
def selectColumn (df : Dataset) : Option (String × Bool) :=
  if "Amount" ∈ columnNames df then some ("Amount", false)
  else if "AbsoluteAmount" ∈ columnNames df then some ("AbsoluteAmount", true)
  else none

/-- Translation of `df[process_column].apply(get_first_digit)` followed by `dropna()`. -/
def extractedDigits (df : Dataset) (col : String) : List Nat :=
  (getColumn df col).filterMap get_first_digit

/-- One row of the report table: digit, raw count, observed frequency
(`digit_counts[d]` and `actual_freq[d]`; the fill loop over `range(1, 10)`
makes every digit present, count 0 when unseen).  The rendered `Benford %`
and `Diff %` columns are data-independent functions of the digit and are
modelled separately by `benford_freq`. -/
structure ReportRow where
  digit : Nat
  count : Nat
  actualFreq : ℚ
deriving DecidableEq

/-- The data-dependent content of the written report: header fields and the
nine digit rows in order. -/
structure Report where
  analyzedFile : String
  columnAnalyzed : String
  totalValidEntries : Nat
  rows : List ReportRow
deriving DecidableEq

/-- Build the report for the extracted digit list: total is the number of
valid entries, and for each digit `1..9` the count and observed frequency
`count / total`. -/
def mkReport (filePath col : String) (digits : List Nat) : Report :=
  { analyzedFile := filePath
    columnAnalyzed := col
    totalValidEntries := digits.length
    rows := (List.range' 1 9).map (fun d =>
      { digit := d, count := digits.count d
        actualFreq := (digits.count d : ℚ) / (digits.length : ℚ) }) }

/-- The fatal error kinds of the run. -/
inductive RunError where
  | loadError
  | columnNotFound (available : List String)
  | noData
deriving DecidableEq

/-- Observable outcome of one `main()` run: whether the output directory
was created (and the creation announced), whether it exists afterwards,
whether the fallback notice was printed, the result or fatal error, and the
files written. -/
structure RunTrace where
  dirCreated : Bool
  dirExistsAfter : Bool
  fallbackNotice : Bool
  outcome : Except RunError Report
  filesWritten : List String

def reportPath : String := "output/benford_analysis_report.txt"

def chartPath : String := "output/benford_analysis_chart.png"

/-- The `main()` pipeline.  `outputDirExists` is the prior state probed by
`os.path.exists`; `loaded` is the result of `pd.read_excel` (`none` models
the `except` branch, a `LoadError`).  The directory step happens before
loading, then column selection, digit extraction, the empty check, and the
report/chart writes. -/
def mainRun (outputDirExists : Bool) (loaded : Option Dataset) : RunTrace :=
  let dirCreated := !outputDirExists
  let dirExistsAfter := outputDirExists || dirCreated
  match loaded with
  | none =>
    { dirCreated := dirCreated, dirExistsAfter := dirExistsAfter,
      fallbackNotice := false, outcome := .error .loadError,
      filesWritten := [] }
  | some df =>
    match selectColumn df with
    | none =>
      { dirCreated := dirCreated, dirExistsAfter := dirExistsAfter,
        fallbackNotice := false,
        outcome := .error (.columnNotFound (columnNames df)),
        filesWritten := [] }
    | some (col, fallback) =>
      let digits := extractedDigits df col
      if digits.isEmpty then
        { dirCreated := dirCreated, dirExistsAfter := dirExistsAfter,
          fallbackNotice := fallback, outcome := .error .noData,
          filesWritten := [] }
      else
        { dirCreated := dirCreated, dirExistsAfter := dirExistsAfter,
          fallbackNotice := fallback,
          outcome := .ok (mkReport "je_samples.xlsx" col digits),
          filesWritten := [reportPath, chartPath] }

/-- Every extracted digit lies in `1..9`. -/
theorem extractedDigits_mem (df : Dataset) (col : String) (d : Nat)
    (h : d ∈ extractedDigits df col) : 1 ≤ d ∧ d ≤ 9 := by
  obtain ⟨v, _, hd⟩ := List.mem_filterMap.mp h
  exact get_first_digit_range v d hd

/-- The per-digit counts of a list of digits in `1..9` sum to its length. -/
theorem count_digits_sum (l : List Nat) (h : ∀ x ∈ l, 1 ≤ x ∧ x ≤ 9) :
    l.count 1 + l.count 2 + l.count 3 + l.count 4 + l.count 5 + l.count 6 +
      l.count 7 + l.count 8 + l.count 9 = l.length := by
  induction l with
  | nil => simp
  | cons a l ih =>
    have ha := h a (List.mem_cons_self a l)
    have ih' := ih (fun x hx => h x (List.mem_cons_of_mem a hx))
    simp only [List.count_cons, List.length_cons]
    obtain ⟨ha1, ha9⟩ := ha
    interval_cases a <;> simp <;> omega

/-- Characterisation of a successful run: the data must have loaded, a
column must have been selected, and the extracted digits are nonempty. -/
theorem mainRun_ok (dirE : Bool) (loaded : Option Dataset) (r : Report)
    (h : (mainRun dirE loaded).outcome = .ok r) :
    ∃ df col fb, loaded = some df ∧ selectColumn df = some (col, fb) ∧
      extractedDigits df col ≠ [] ∧
      r = mkReport "je_samples.xlsx" col (extractedDigits df col) := by
  cases loaded with
  | none => simp [mainRun] at h
  | some df =>
    cases hsel : selectColumn df with
    | none => simp [mainRun, hsel] at h
    | some cf =>
      obtain ⟨col, fb⟩ := cf
      by_cases hemp : (extractedDigits df col).isEmpty
      · simp [mainRun, hsel, hemp] at h
      · refine ⟨df, col, fb, rfl, hsel, ?_, ?_⟩
        · intro hnil
          exact hemp (by simp [hnil])
        · simp [mainRun, hsel, hemp] at h
          exact h.symm

/-- Every digit `1..9` has a row in the report table. -/
theorem mkReport_digit_present (fp c : String) (digits : List Nat) (d : Nat)
    (h1 : 1 ≤ d) (h9 : d ≤ 9) :
    ∃ row ∈ (mkReport fp c digits).rows, row.digit = d := by
  refine ⟨_, List.mem_map_of_mem _ (List.mem_range'.mpr ⟨d - 1, by omega, by omega⟩), rfl⟩

/-- The `Count` column of the report sums to the reported total, provided
every digit lies in `1..9`. -/
theorem mkReport_count_sum (fp c : String) (digits : List Nat)
    (hmem : ∀ x ∈ digits, 1 ≤ x ∧ x ≤ 9) :
    ((mkReport fp c digits).rows.map (fun row => row.count)).sum =
      (mkReport fp c digits).totalValidEntries := by
  have hsum := count_digits_sum digits hmem
  simp only [mkReport, List.map_map]
  rw [show List.range' 1 9 = [1, 2, 3, 4, 5, 6, 7, 8, 9] from rfl]
  simp only [List.map_cons, List.map_nil, List.sum_cons, List.sum_nil,
    Function.comp]
  omega

/-- The observed frequencies of the report sum to exactly 1 when the digit
list is nonempty and all digits lie in `1..9`. -/
theorem mkReport_freq_sum (fp c : String) (digits : List Nat)
    (hne : digits ≠ []) (hmem : ∀ x ∈ digits, 1 ≤ x ∧ x ≤ 9) :
    ((mkReport fp c digits).rows.map (fun row => row.actualFreq)).sum = 1 := by
  have hT : (digits.length : ℚ) ≠ 0 := by
    have h : digits.length ≠ 0 := by
      simpa [List.length_eq_zero] using hne
    exact_mod_cast h
  have hq : (digits.count 1 : ℚ) + digits.count 2 + digits.count 3 +
      digits.count 4 + digits.count 5 + digits.count 6 + digits.count 7 +
      digits.count 8 + digits.count 9 = (digits.length : ℚ) := by
    exact_mod_cast count_digits_sum digits hmem
  simp only [mkReport, List.map_map]
  rw [show List.range' 1 9 = [1, 2, 3, 4, 5, 6, 7, 8, 9] from rfl]
  simp only [List.map_cons, List.map_nil, List.sum_cons, List.sum_nil,
    Function.comp]
  field_simp
  linarith [hq]

/-- Claim C3: in every run that reaches frequency computation the table has
a row for each digit `1..9` and the observed frequencies sum to exactly 1
(hence within any floating-point tolerance). -/
theorem c3_frequency_table (dirE : Bool) (loaded : Option Dataset)
    (r : Report) (h : (mainRun dirE loaded).outcome = .ok r) :
    (∀ d, 1 ≤ d → d ≤ 9 → ∃ row ∈ r.rows, row.digit = d) ∧
    (r.rows.map (fun row => row.actualFreq)).sum = 1 := by
  obtain ⟨df, col, fb, -, -, hne, rfl⟩ := mainRun_ok dirE loaded r h
  constructor
  · intro d h1 h9
    exact mkReport_digit_present _ _ _ d h1 h9
  · exact mkReport_freq_sum _ _ _ hne
      (fun x hx => extractedDigits_mem df col x hx)

/-- Claim C8: in every successful run the per-digit counts of the report
table sum to the total valid entry count of the header. -/
theorem c8_count_sum_equals_total (dirE : Bool) (loaded : Option Dataset)
    (r : Report) (h : (mainRun dirE loaded).outcome = .ok r) :
    (r.rows.map (fun row => row.count)).sum = r.totalValidEntries := by
  obtain ⟨df, col, fb, -, -, -, rfl⟩ := mainRun_ok dirE loaded r h
  exact mkReport_count_sum _ _ _ (fun x hx => extractedDigits_mem df col x hx)

/-- Evaluation `get_first_digit 2 = 2`, for the sample run below. -/
theorem gfd_two : get_first_digit (.num 2) = some 2 := by
  rw [get_first_digit_eval 2 2000000000000000 (by norm_num)
    (by rw [abs_of_pos (by norm_num)]; norm_num [rhe]) (by norm_num)]
  rw [lead_spec 15 2000000000000000 2 0 (by norm_num) (by norm_num)
    (by norm_num) (by norm_num)]

/-- A one-cell dataset for concrete witnesses. -/
def sampleDataset : Dataset := [("Amount", [Value.num 2])]

/-- The sample run succeeds with the concrete one-row report. -/
theorem sampleRun_outcome :
    (mainRun true (some sampleDataset)).outcome =
      Except.ok (mkReport "je_samples.xlsx" "Amount" [2]) := by
  have hdig : extractedDigits sampleDataset "Amount" = [2] := by
    simp [extractedDigits, sampleDataset, getColumn, gfd_two]
  have hsel : selectColumn sampleDataset = some ("Amount", false) := by
    simp [selectColumn, sampleDataset, columnNames]
  simp [mainRun, hsel, hdig]

/-- Witness for C3 on the sample run. -/
theorem c3_witness :
    (mainRun true (some sampleDataset)).outcome =
        Except.ok (mkReport "je_samples.xlsx" "Amount" [2]) ∧
    ((∀ d, 1 ≤ d → d ≤ 9 →
        ∃ row ∈ (mkReport "je_samples.xlsx" "Amount" [2]).rows, row.digit = d) ∧
      ((mkReport "je_samples.xlsx" "Amount" [2]).rows.map
        (fun row => row.actualFreq)).sum = 1) :=
  ⟨sampleRun_outcome,
    c3_frequency_table true (some sampleDataset) _ sampleRun_outcome⟩

/-- Witness for C8 on the sample run. -/
theorem c8_witness :
    (mainRun true (some sampleDataset)).outcome =
        Except.ok (mkReport "je_samples.xlsx" "Amount" [2]) ∧
    ((mkReport "je_samples.xlsx" "Amount" [2]).rows.map
        (fun row => row.count)).sum =
      (mkReport "je_samples.xlsx" "Amount" [2]).totalValidEntries :=
  ⟨sampleRun_outcome,
    c8_count_sum_equals_total true (some sampleDataset) _ sampleRun_outcome⟩

/-- Claim C5: column selection priority.  `Amount` wins when present; else
`AbsoluteAmount` is selected and the fallback notice is emitted on the run;
else the run fails with `ColumnNotFoundError` carrying the available column
names and writes no output files. -/
theorem c5_column_selection (dirE : Bool) (df : Dataset) :
    ("Amount" ∈ columnNames df → selectColumn df = some ("Amount", false)) ∧
    ("Amount" ∉ columnNames df → "AbsoluteAmount" ∈ columnNames df →
      selectColumn df = some ("AbsoluteAmount", true) ∧
      (mainRun dirE (some df)).fallbackNotice = true) ∧
    ("Amount" ∉ columnNames df → "AbsoluteAmount" ∉ columnNames df →
      (mainRun dirE (some df)).outcome =
        .error (.columnNotFound (columnNames df)) ∧
      (mainRun dirE (some df)).filesWritten = []) := by
  refine ⟨?_, ?_, ?_⟩
  · intro h
    simp [selectColumn, h]
  · intro h1 h2
    have hsel : selectColumn df = some ("AbsoluteAmount", true) := by
      simp [selectColumn, h1, h2]
    refine ⟨hsel, ?_⟩
    by_cases hemp : (extractedDigits df "AbsoluteAmount").isEmpty
    · simp [mainRun, hsel, hemp]
    · simp [mainRun, hsel, hemp]
  · intro h1 h2
    have hsel : selectColumn df = none := by
      simp [selectColumn, h1, h2]
    exact ⟨by simp [mainRun, hsel], by simp [mainRun, hsel]⟩

/-- Witness for C5: a dataset with only `AbsoluteAmount` takes the middle
branch, and one with neither column takes the error branch. -/
theorem c5_witness :
    (selectColumn [("AbsoluteAmount", [Value.num 2])] =
        some ("AbsoluteAmount", true) ∧
      (mainRun true (some [("AbsoluteAmount", [Value.num 2])])).fallbackNotice
        = true) ∧
    ((mainRun true (some [("Other", [Value.num 2])])).outcome =
        .error (.columnNotFound (columnNames [("Other", [Value.num 2])])) ∧
      (mainRun true (some [("Other", [Value.num 2])])).filesWritten = []) :=
  ⟨(c5_column_selection true [("AbsoluteAmount", [Value.num 2])]).2.1
      (by simp [columnNames]) (by simp [columnNames]),
    (c5_column_selection true [("Other", [Value.num 2])]).2.2
      (by simp [columnNames]) (by simp [columnNames])⟩

/-- Claim C6: a run whose chosen column yields no valid digits aborts with
`NoDataError` and writes no files. -/
theorem c6_no_data_error (dirE : Bool) (df : Dataset) (col : String)
    (fb : Bool) (hsel : selectColumn df = some (col, fb))
    (hempty : extractedDigits df col = []) :
    (mainRun dirE (some df)).outcome = .error .noData ∧
    (mainRun dirE (some df)).filesWritten = [] := by
  have hemp : (extractedDigits df col).isEmpty := by simp [hempty]
  exact ⟨by simp [mainRun, hsel, hemp], by simp [mainRun, hsel, hemp]⟩

/-- Witness for C6: a dataset whose `Amount` column holds only excluded
values (text, zero, missing). -/
theorem c6_witness :
    selectColumn [("Amount", [Value.text "bad", Value.num 0, Value.null])] =
        some ("Amount", false) ∧
    extractedDigits [("Amount", [Value.text "bad", Value.num 0, Value.null])]
        "Amount" = [] ∧
    (mainRun true
        (some [("Amount", [Value.text "bad", Value.num 0, Value.null])])).outcome
      = .error .noData ∧
    (mainRun true
        (some [("Amount", [Value.text "bad", Value.num 0, Value.null])])).filesWritten
      = [] := by
  have hsel : selectColumn
      [("Amount", [Value.text "bad", Value.num 0, Value.null])] =
        some ("Amount", false) := by
    simp [selectColumn, columnNames]
  have hempty : extractedDigits
      [("Amount", [Value.text "bad", Value.num 0, Value.null])] "Amount" = [] := by
    have h0 : get_first_digit (.num 0) = none := by
      rw [get_first_digit_num, if_pos rfl]
    simp [extractedDigits, getColumn, h0, get_first_digit]
  have h := c6_no_data_error true _ _ _ hsel hempty
  exact ⟨hsel, hempty, h.1, h.2⟩

/-- Claim C10: the output directory step precedes loading, so a run whose
load fails (`LoadError`) still leaves the output directory in existence
(created when it was absent), while writing no files. -/
theorem c10_dir_created_before_load (dirE : Bool) :
    (mainRun dirE none).outcome = .error .loadError ∧
    (mainRun dirE none).dirExistsAfter = true ∧
    (mainRun dirE none).dirCreated = !dirE ∧
    (mainRun dirE none).filesWritten = [] := by
  cases dirE <;> exact ⟨rfl, rfl, rfl, rfl⟩

/-- Evaluation `get_first_digit 123 = 1`. -/
theorem gfd_123 : get_first_digit (.num 123) = some 1 := by
  rw [get_first_digit_eval 123 123000000000000000 (by norm_num)
    (by rw [abs_of_pos (by norm_num)]; norm_num [rhe]) (by norm_num)]
  rw [lead_spec 17 123000000000000000 1 23000000000000000 (by norm_num)
    (by norm_num) (by norm_num) (by norm_num)]

/-- Evaluation `get_first_digit 45.6 = 4`. -/
theorem gfd_456 : get_first_digit (.num (456 / 10)) = some 4 := by
  rw [get_first_digit_eval (456 / 10) 45600000000000000 (by norm_num)
    (by rw [abs_of_pos (by norm_num)]; norm_num [rhe]) (by norm_num)]
  rw [lead_spec 16 45600000000000000 4 5600000000000000 (by norm_num)
    (by norm_num) (by norm_num) (by norm_num)]

/-- Evaluation `get_first_digit (-0.0089) = 8`. -/
theorem gfd_neg89 : get_first_digit (.num (-(89 / 10000))) = some 8 := by
  rw [get_first_digit_eval (-(89 / 10000)) 8900000000000 (by norm_num)
    (by rw [abs_neg, abs_of_pos (by norm_num)]; norm_num [rhe]) (by norm_num)]
  rw [lead_spec 12 8900000000000 8 900000000000 (by norm_num)
    (by norm_num) (by norm_num) (by norm_num)]

/-- Evaluation `get_first_digit 0 = None`. -/
theorem gfd_zero : get_first_digit (.num 0) = none := by
  rw [get_first_digit_num, if_pos rfl]

/-- The spec's scenario column `Amount = [123, 45.6, 0, -0.0089, "bad", null]`. -/
def scenarioColumn : List Value :=
  [.num 123, .num (456 / 10), .num 0, .num (-(89 / 10000)), .text "bad", .null]

def scenarioDataset : Dataset := [("Amount", scenarioColumn)]

/-- Claim C7: on the scenario column, `0`, `"bad"` and `null` are excluded,
the leading digits are `[1, 4, 8]`, the total valid count is 3, and the
digit counts are 1 for digits 1, 4, 8 and 0 for every other digit. -/
theorem c7_scenario :
    scenarioColumn.map get_first_digit =
      [some 1, some 4, none, some 8, none, none] ∧
    extractedDigits scenarioDataset "Amount" = [1, 4, 8] ∧
    (mainRun true (some scenarioDataset)).outcome =
      Except.ok (mkReport "je_samples.xlsx" "Amount" [1, 4, 8]) ∧
    (mkReport "je_samples.xlsx" "Amount" [1, 4, 8]).totalValidEntries = 3 ∧
    (mkReport "je_samples.xlsx" "Amount" [1, 4, 8]).rows.map
        (fun row => (row.digit, row.count)) =
      [(1, 1), (2, 0), (3, 0), (4, 1), (5, 0), (6, 0), (7, 0), (8, 1), (9, 0)] := by
  have hmap : scenarioColumn.map get_first_digit =
      [some 1, some 4, none, some 8, none, none] := by
    simp [scenarioColumn, gfd_123, gfd_456, gfd_neg89, gfd_zero]
    exact ⟨rfl, rfl⟩
  have hdig : extractedDigits scenarioDataset "Amount" = [1, 4, 8] := by
    simp [extractedDigits, scenarioDataset, getColumn, scenarioColumn,
      gfd_123, gfd_456, gfd_neg89, gfd_zero]
    exact ⟨rfl, rfl⟩
  have hsel : selectColumn scenarioDataset = some ("Amount", false) := by
    simp [selectColumn, scenarioDataset, columnNames]
  refine ⟨hmap, hdig, ?_, rfl, ?_⟩
  · simp [mainRun, hsel, hdig]
  · rw [show (mkReport "je_samples.xlsx" "Amount" [1, 4, 8]).rows =
      (List.range' 1 9).map (fun d =>
        { digit := d, count := List.count d [1, 4, 8]
          actualFreq := (List.count d [1, 4, 8] : ℚ) / 3 }) from rfl]
    rw [show List.range' 1 9 = [1, 2, 3, 4, 5, 6, 7, 8, 9] from rfl]
    simp [List.count_cons]

/-- The theoretical Benford frequency computed by the program,
`math.log10(1 + 1/d)` (exact-real model of the float computation). -/
noncomputable def benford_freq (d : Nat) : ℝ := Real.logb 10 (1 + 1 / (d : ℝ))

/-- Identity `log10 (1 + 1/d) = log10 (d+1) - log10 d` for `d ≥ 1`. -/
theorem benford_freq_eq_sub (d : Nat) (hd : 1 ≤ d) :
    benford_freq d = Real.logb 10 ((d : ℝ) + 1) - Real.logb 10 (d : ℝ) := by
  have hd0 : (d : ℝ) ≠ 0 := Nat.cast_ne_zero.mpr (by omega)
  have h1 : 1 + 1 / (d : ℝ) = ((d : ℝ) + 1) / d := by field_simp
  rw [benford_freq, h1, Real.logb_div (by positivity) hd0]

/-- The nine theoretical Benford frequencies sum to exactly 1
(telescoping to `log10 10`). -/
theorem benford_sum : ∑ d in Finset.Icc 1 9, benford_freq d = 1 := by
  have hstep : ∀ i : ℕ, benford_freq (1 + i) =
      (fun n : ℕ => Real.logb 10 ((n : ℝ) + 1)) (i + 1) -
      (fun n : ℕ => Real.logb 10 ((n : ℝ) + 1)) i := by
    intro i
    rw [benford_freq_eq_sub (1 + i) (by omega)]
    push_cast
    ring_nf
  rw [← Nat.Ico_succ_right, Finset.sum_Ico_eq_sum_range]
  norm_num
  rw [Finset.sum_congr rfl (fun i _ => hstep i)]
  rw [Finset.sum_range_sub (fun n : ℕ => Real.logb 10 ((n : ℝ) + 1)) 9]
  norm_num

/-- Claim C4: for every digit `d` in `1..9` the program's theoretical
frequency is `log10 (1 + 1/d)`, and the nine values sum to 1 within
`1e-9` (the sum is exactly 1). -/
theorem c4_benford_frequencies :
    (∀ d : Nat, 1 ≤ d → d ≤ 9 →
      benford_freq d = Real.logb 10 (1 + 1 / (d : ℝ))) ∧
    |(∑ d in Finset.Icc 1 9, benford_freq d) - 1| ≤ 1 / 10 ^ 9 := by
  refine ⟨fun d h1 h9 => rfl, ?_⟩
  rw [benford_sum]
  norm_num

/-- Witness for C4 at digit 3. -/
theorem c4_witness :
    benford_freq 3 = Real.logb 10 (1 + 1 / (3 : ℝ)) ∧
    |(∑ d in Finset.Icc 1 9, benford_freq d) - 1| ≤ 1 / 10 ^ 9 :=
  ⟨c4_benford_frequencies.1 3 (by norm_num) (by norm_num),
    c4_benford_frequencies.2⟩

end Benford
